import Mathlib

/-!
Verification model of the HaydnG/userapi repository.

The development shallowly embeds the two concurrency-bearing components of
the service and the thin db layer that uses them:

* `cacheStore` (cacheStore/cacheStore.go): a generic TTL cache with a
  read/write-locked map, lazy reload on access and a background sweep.
* the gRPC broadcaster (userapi.go): `WatchUsers` registers per-watcher
  channels and `NotifyUpdate` fans events out with non-blocking sends.
* `db` (db/db.go): the user collection operations and the single
  `userStore` cache used by `GetUsers`.

Go time instants and durations are modelled as integers (nanosecond
counts); Go maps are modelled as association lists whose insert replaces
the existing binding; a Go function returning `(V, error)` is modelled as
returning `V × Option Err` where the first component is the zero value
when the error is set.
-/

namespace UserApi

/-- Generic error type standing for Go `error` values. -/
abbrev Err := String

section AssocMap

variable {K : Type} {A : Type} [DecidableEq K]

/-- Lookup in a Go map modelled as an association list (`m[key]`). -/
def mapLookup : List (K × A) → K → Option A
  | [], _ => none
  | (k, a) :: rest, key => if k = key then some a else mapLookup rest key

/-- Insertion into a Go map (`m[key] = a`): replaces any existing binding. -/
def mapInsert : List (K × A) → K → A → List (K × A)
  | [], key, a => [(key, a)]
  | (k, b) :: rest, key, a =>
      if k = key then (key, a) :: rest else (k, b) :: mapInsert rest key a

end AssocMap

/-! ## cacheStore/cacheStore.go -/

/-- `cacheItem` represents a cached item with generic type
(cacheStore.go lines 253-258).  `created` is the load instant. -/
structure cacheItem (K V : Type) where
  key : K
  created : Int
  data : V
  deriving Repr, DecidableEq

/-- `store` is a generic cache store (cacheStore.go lines 260-268).
The `sync.RWMutex` field has no data content and is represented by the
atomicity of the operations below; `name` is diagnostic only. -/
structure store (K V : Type) where
  name : String
  data : List (K × cacheItem K V)
  duration : Int
  cleanUpInterval : Int
  cleanUpActive : Bool
  deriving Repr, DecidableEq

/-- `NewStore` creates a new generic store with a given name and duration
(cacheStore.go lines 239-251).  The spawned `cleanUpJob` goroutine is
modelled separately by `sweepPass` steps. -/
def NewStore (K V : Type) (name : String) (duration : Int) : store K V :=
  { name := name
    data := []
    duration := duration
    cleanUpInterval := 1
    cleanUpActive := true }

variable {K V : Type} [DecidableEq K] [Inhabited K] [Inhabited V]

instance : Inhabited (cacheItem K V) := ⟨⟨default, 0, default⟩⟩

/-- `addData` adds new data to the cache by invoking `dataFunction`
(cacheStore.go lines 335-349).  On error it returns the zero
`cacheItem` and leaves the map untouched; on success it stores the item
with `created := now` (`time.Now()`). -/
def addData (s : store K V) (now : Int) (key : K)
    (dataFunction : K → V × Option Err) :
    cacheItem K V × store K V × Option Err :=
  match dataFunction key with
  | (_, some e) => (default, s, some e)
  | (v, none) =>
      let item : cacheItem K V := { key := key, created := now, data := v }
      (item, { s with data := mapInsert s.data key item }, none)

/-- Result of one `GetData` call: the returned value (zero on error), the
returned error, the store after the call, and how many times
`dataFunction` was invoked during the call. -/
structure GetResult (K V : Type) where
  value : V
  err : Option Err
  post : store K V
  calls : Nat
  deriving Repr, DecidableEq

/-- `GetData` retrieves data from the cache or loads it using
`dataFunction` if not present (cacheStore.go lines 298-333), run
sequentially at instant `now` (`time.Since(item.created)` is
`now - item.created`).  The double-checked read of `s.data[key]`
collapses to a single lookup in a sequential run; the final age check is
guarded by `ok`, which stays `false` on the fresh-load path. -/
def GetData (s : store K V) (now : Int) (key : K)
    (dataFunction : K → V × Option Err) : GetResult K V :=
  match mapLookup s.data key with
  | none =>
      -- miss: take the write lock, re-check, and load via addData
      match addData s now key dataFunction with
      | (_, s1, some e) => { value := default, err := some e, post := s1, calls := 1 }
      | (item, s1, none) =>
          -- ok is still false here, so the trailing age check is skipped
          { value := item.data, err := none, post := s1, calls := 1 }
  | some item =>
      -- ok = true: re-lock and reload when the entry's age reached the ttl
      if now - item.created ≥ s.duration then
        match addData s now key dataFunction with
        | (_, s1, some e) => { value := default, err := some e, post := s1, calls := 1 }
        | (item1, s1, none) => { value := item1.data, err := none, post := s1, calls := 1 }
      else
        { value := item.data, err := none, post := s, calls := 0 }

/-- `Clear` removes all entries from the cache (cacheStore.go lines
351-356). -/
def Clear (s : store K V) : store K V :=
  { s with data := [] }

/-- One pass of the body of the `cleanUpJob` goroutine (cacheStore.go
lines 270-296): under the write lock, every entry whose age at `now` has
reached `duration` is deleted. -/
def sweepPass (s : store K V) (now : Int) : store K V :=
  { s with data := s.data.filter (fun kv => ¬ (now - kv.2.created ≥ s.duration)) }

/-- The operations the `cacheStore` package defines on a constructed
`store`, each tagged with the instant at which it runs: `GetData`
(cacheStore.go line 299), `Clear` (line 352) and one sweep pass of
`cleanUpJob` (line 271).  This is the complete API surface of the
package; nothing else mutates a store. -/
inductive StoreOp (K V : Type) where
  | getData (now : Int) (key : K) (dataFunction : K → V × Option Err)
  | clear
  | sweep (now : Int)

/-- Apply one API operation to the store state. -/
def applyStoreOp (s : store K V) : StoreOp K V → store K V
  | .getData now key f => (GetData s now key f).post
  | .clear => Clear s
  | .sweep now => sweepPass s now

/-- Run a whole sequence of API operations from a given store state. -/
def applyStoreOps (s : store K V) (ops : List (StoreOp K V)) : store K V :=
  ops.foldl applyStoreOp s

/-! ### Concrete instances used by witnesses and counterexamples -/

/-- Loader that returns 5, as in the repository's `mockDataFunction`
shape. -/
def loadFive : Nat → Nat × Option Err := fun _ => (5, none)

/-- Loader that returns 7 (a changed backing value). -/
def loadSeven : Nat → Nat × Option Err := fun _ => (7, none)

/-- Loader that always errors, as `mockDataFunction` does on "error". -/
def loadBoom : Nat → Nat × Option Err := fun _ => (0, some "mock error")

/-- A store with ttl 10 holding one entry loaded at instant 0: the state
of `NewStore` followed by a successful `GetData` at time 0. -/
def demoStore : store Nat Nat :=
  (GetData (NewStore Nat Nat "testStore" 10) 0 0 loadFive).post

/-- A sequence exercising every store API operation: hits, misses, a
failing load, a sweep and a clear. -/
def demoStoreOps : List (StoreOp Nat Nat) :=
  [ .getData 0 1 loadFive
  , .getData 3 1 loadFive
  , .getData 4 2 loadBoom
  , .sweep 30
  , .clear
  , .getData 31 1 loadSeven ]

/-- `demoStore` after a second key is loaded at instant 3: holds entries
for key 0 (created 0) and key 1 (created 3), ttl 10. -/
def twoKeyStore : store Nat Nat :=
  (GetData demoStore 3 1 loadSeven).post

/-! ## Interleaving model of concurrent `GetData` calls

`GetData` (cacheStore.go lines 298-333) holds the `RWMutex` around three
code sections, so a concurrent execution is an interleaving of atomic
sections: the initial read-locked lookup (lines 303-306), the
write-locked re-check-and-load (lines 308-320), and the write-locked age
check with possible reload (lines 322-330).  The loader runs inside the
write lock (`addData`, line 312/326), so it sits inside its section.
All sections of one episode are modelled at one instant `now` (callers
overlapping in a single miss episode). -/

/-- Local state of one goroutine inside `GetData`: the program counter
(0 = before the read-locked lookup, 1 = before the write-locked
re-check, 2 = before the final age check, 3 = returned), the local
variables `ok` and `item`, and the returned pair. -/
structure CallerState (K V : Type) where
  pc : Nat
  ok : Bool
  item : cacheItem K V
  retVal : V
  retErr : Option Err
  deriving Repr, DecidableEq

/-- Shared state of the interleaved execution: the store's map, a ghost
count of loader invocations, and the two callers. -/
structure MState (K V : Type) where
  data : List (K × cacheItem K V)
  calls : Nat
  c1 : CallerState K V
  c2 : CallerState K V
  deriving Repr, DecidableEq

/-- One atomic section of `GetData` executed by one caller against the
shared map.  `dur` is the store's ttl and `now` the current instant. -/
def stepCaller (dur now : Int) (key : K) (f : K → V × Option Err)
    (data : List (K × cacheItem K V)) (calls : Nat) (c : CallerState K V) :
    List (K × cacheItem K V) × Nat × CallerState K V :=
  match c.pc with
  | 0 =>
      -- lines 303-306: item, ok := s.data[key] under the read lock
      match mapLookup data key with
      | some it => (data, calls, { c with pc := 2, ok := true, item := it })
      | none => (data, calls, { c with pc := 1, ok := false })
  | 1 =>
      -- lines 308-320: write lock, re-check, load via addData on miss
      match mapLookup data key with
      | some it => (data, calls, { c with pc := 2, ok := true, item := it })
      | none =>
          match f key with
          | (_, some e) =>
              (data, calls + 1, { c with pc := 3, retVal := default, retErr := some e })
          | (v, none) =>
              let it : cacheItem K V := { key := key, created := now, data := v }
              (mapInsert data key it, calls + 1, { c with pc := 2, item := it })
  | 2 =>
      -- lines 322-330: write lock, reload if ok and the entry aged out
      if c.ok ∧ now - c.item.created ≥ dur then
        match f key with
        | (_, some e) =>
            (data, calls + 1, { c with pc := 3, retVal := default, retErr := some e })
        | (v, none) =>
            let it : cacheItem K V := { key := key, created := now, data := v }
            (mapInsert data key it, calls + 1,
              { c with pc := 3, item := it, retVal := v, retErr := none })
      else
        (data, calls, { c with pc := 3, retVal := c.item.data, retErr := none })
  | _ => (data, calls, c)

/-- Interleaving step: `who = true` runs caller 1, `who = false` runs
caller 2. -/
def stepM (dur now : Int) (key : K) (f : K → V × Option Err)
    (s : MState K V) (who : Bool) : MState K V :=
  if who then
    match stepCaller dur now key f s.data s.calls s.c1 with
    | (d, cl, c) => { s with data := d, calls := cl, c1 := c }
  else
    match stepCaller dur now key f s.data s.calls s.c2 with
    | (d, cl, c) => { s with data := d, calls := cl, c2 := c }

/-- Run a whole schedule (list of caller choices). -/
def runSched (dur now : Int) (key : K) (f : K → V × Option Err)
    (sched : List Bool) (s : MState K V) : MState K V :=
  sched.foldl (stepM dur now key f) s

/-- A caller that has not started yet (all Go locals zero). -/
def initCaller : CallerState Nat Nat :=
  { pc := 0, ok := false, item := default, retVal := 0, retErr := none }

/-- Two callers about to run `GetData` on a store whose only entry for
key 0 was created at instant 0 (it is expired at instant 10 with ttl
10). -/
def expiredInit : MState Nat Nat :=
  { data := [(0, ⟨0, 0, 5⟩)], calls := 0, c1 := initCaller, c2 := initCaller }

/-- Two callers about to run `GetData` on a store with no entry for the
key: a fresh miss episode. -/
def absentInit : MState Nat Nat :=
  { data := [], calls := 0, c1 := initCaller, c2 := initCaller }

/-- Fuel-bounded breadth-first closure of a two-caller step function:
collects every machine state reachable from the seed set. -/
def bfsClosure [DecidableEq V] (step : MState K V → Bool → MState K V) :
    Nat → List (MState K V) → List (MState K V) → List (MState K V)
  | 0, _, seen => seen
  | _ + 1, [], seen => seen
  | fuel + 1, s :: rest, seen =>
      let nexts := [step s true, step s false].filter (fun t => decide (t ∉ seen))
      bfsClosure step fuel (rest ++ nexts) (seen ++ nexts)

/-- All machine states reachable from `absentInit` when both callers run
`GetData` for key 0 at instant 0 with ttl 10 and the loader `loadFive`. -/
def reachAbsent : List (MState Nat Nat) :=
  bfsClosure (stepM 10 0 0 loadFive) 1000 [absentInit] [absentInit]

/-! ## userapi.go: the gRPC broadcaster

`UserService` (userapi.go lines 524-530) keeps `watchers`, a map from
per-watcher channels to `struct{}{}` guarded by an `RWMutex`.
`WatchUsers` (lines 705-730) registers a fresh unbuffered channel,
drains it, and on stream end deletes it from the map (under the lock)
and then closes it.  `NotifyUpdate` (lines 740-750) takes the read lock
and attempts one non-blocking send per registered channel. -/

/-- `pb.User` message (userapi.proto): the snapshot carried in update
events.  Timestamps are integer instants. -/
structure PbUser where
  ID : String
  FirstName : String
  LastName : String
  Nickname : String
  Password : String
  Email : String
  Country : String
  CreatedAt : Int
  UpdatedAt : Int
  deriving Repr, DecidableEq

/-- `pb.UserUpdate` message: built by `NotifyUpdate` (userapi.go line
745) as `{UserId, UpdateType, User}`; `User` is nil for ALL_DELETED. -/
structure UserUpdate where
  UserId : String
  UpdateType : String
  User : Option PbUser
  deriving Repr, DecidableEq

/-- Update-kind constants (userapi.go lines 732-737). -/
def updateCREATED : String := "CREATED"

def updateDELETED : String := "DELETED"

def updateUPDATED : String := "UPDATED"

def updateALLDELETED : String := "ALL_DELETED"

/-- A Go channel as the broadcaster uses one: capacity, buffered values,
the number of consumers currently parked in a receive, the closed flag,
and the ghost list of values consumers have taken (for stating what a
subscriber observed). -/
structure Chan (Ev : Type) where
  cap : Nat
  buf : List Ev
  recvReady : Nat
  closed : Bool
  delivered : List Ev
  deriving Repr, DecidableEq

/-- The non-blocking send `select { case ch <- ev: default: }`
(userapi.go lines 744-748): hand the value to a parked receiver if one
is waiting, else buffer it if there is capacity, else take the default
branch and drop.  Returns the channel and whether the send happened. -/
def trySend {Ev : Type} (c : Chan Ev) (ev : Ev) : Chan Ev × Bool :=
  if 0 < c.recvReady then
    ({ c with recvReady := c.recvReady - 1, delivered := c.delivered ++ [ev] }, true)
  else if c.buf.length < c.cap then
    ({ c with buf := c.buf ++ [ev] }, true)
  else
    (c, false)

/-- Whether a non-blocking send on `c` can succeed right now (a parked
receiver, or buffer headroom). -/
def canAccept {Ev : Type} (c : Chan Ev) : Bool :=
  decide (0 < c.recvReady ∨ c.buf.length < c.cap)

/-- The fan-out loop of `NotifyUpdate` (userapi.go lines 740-750) over
the registered watcher channels: one non-blocking send attempt per
channel, under the read lock; the function has no return value and
in particular returns no error. -/
def NotifyUpdate (watchers : List (Chan UserUpdate))
    (userID updateType : String) (user : Option PbUser) : List (Chan UserUpdate) :=
  watchers.map
    (fun ch => (trySend ch { UserId := userID, UpdateType := updateType, User := user }).1)

/-- `updateChan := make(chan *pb.UserUpdate)` (userapi.go line 707): an
unbuffered, open, empty channel with no parked receiver yet. -/
def newWatchChan : Chan UserUpdate :=
  { cap := 0, buf := [], recvReady := 0, closed := false, delivered := [] }

/-- A registered watcher whose consumer is not currently receiving: a
non-blocking send on it cannot succeed. -/
def fullChan : Chan UserUpdate := newWatchChan

/-- A registered watcher whose consumer is parked in the receive of its
`range` loop. -/
def readyChan : Chan UserUpdate := { newWatchChan with recvReady := 1 }

/-! ### Broadcaster lifecycle state machine

Channels are named by the order of their creation; `watchers` is the
set of ids currently in the `UserService.watchers` map and `chans`
records every channel ever created (so that closed channels remain
observable). -/

/-- Reachable broadcaster state. -/
structure BState where
  watchers : List Nat
  chans : List (Nat × Chan UserUpdate)
  nextId : Nat
  deriving Repr, DecidableEq

/-- `NewUserService` (userapi.go lines 533-538): an empty watchers
map. -/
def bInit : BState :=
  { watchers := [], chans := [], nextId := 0 }

/-- `WatchUsers` registration (userapi.go lines 706-712): make a fresh
unbuffered channel and add it to the watchers map under the lock. -/
def bSubscribe (s : BState) : BState :=
  { watchers := s.watchers ++ [s.nextId]
    chans := s.chans ++ [(s.nextId, newWatchChan)]
    nextId := s.nextId + 1 }

/-- The consumer of channel `id` parks in the receive of its
`for update := range updateChan` loop (userapi.go line 723); receiving
only blocks while the channel is open. -/
def bConsumerReady (s : BState) (id : Nat) : BState :=
  { s with
      chans := s.chans.map (fun p =>
        (p.1, if p.1 = id ∧ p.2.closed = false then
                { p.2 with recvReady := p.2.recvReady + 1 }
              else p.2)) }

/-- `NotifyUpdate` (userapi.go lines 740-750) on the lifecycle state:
one non-blocking send per channel currently in the watchers map. -/
def bNotify (s : BState) (userID updateType : String) (user : Option PbUser) : BState :=
  { s with
      chans := s.chans.map (fun p =>
        (p.1, if p.1 ∈ s.watchers then
                (trySend p.2 { UserId := userID, UpdateType := updateType, User := user }).1
              else p.2)) }

/-- First half of the `WatchUsers` deferred cleanup (userapi.go lines
716-718): delete the channel from the watchers map under the lock. -/
def bRemoveWatcher (s : BState) (id : Nat) : BState :=
  { s with watchers := s.watchers.filter (fun j => decide (j ≠ id)) }

/-- Second half of the deferred cleanup (userapi.go line 719):
`close(updateChan)`. -/
def bCloseChan (s : BState) (id : Nat) : BState :=
  { s with
      chans := s.chans.map (fun p =>
        (p.1, if p.1 = id then { p.2 with closed := true } else p.2)) }

/-- Stream termination (userapi.go lines 714-720): the deferred cleanup
removes the watcher from the map and then closes its channel, in that
order. -/
def bStreamEnd (s : BState) (id : Nat) : BState :=
  bCloseChan (bRemoveWatcher s id) id

/-- The events the broadcaster code performs on the shared state. -/
inductive BOp where
  | subscribe
  | consumerReady (id : Nat)
  | notify (userID updateType : String) (user : Option PbUser)
  | streamEnd (id : Nat)

/-- Apply one broadcaster event. -/
def bStep (s : BState) : BOp → BState
  | .subscribe => bSubscribe s
  | .consumerReady id => bConsumerReady s id
  | .notify userID updateType user => bNotify s userID updateType user
  | .streamEnd id => bStreamEnd s id

/-- Run a trace of broadcaster events from a state. -/
def bRun (s : BState) (ops : List BOp) : BState :=
  ops.foldl bStep s

/-- A concrete trace: two watchers subscribe, the first stream ends. -/
def demoBOps : List BOp :=
  [.subscribe, .subscribe, .streamEnd 0]

/-! ## db/db.go: the user collection and its cache

Mongo connectivity errors are outside this model: collection operations
are modelled on the in-memory list of documents.  What matters for the
claims is which operations touch the package-level `userStore` cache. -/

/-- `data.User` (data/data.go): the stored user record; timestamps are
integer instants. -/
structure User where
  ID : String
  FirstName : String
  LastName : String
  Nickname : String
  Password : String
  Email : String
  Country : String
  CreatedAt : Int
  UpdatedAt : Int
  deriving Repr, DecidableEq

instance : Inhabited User := ⟨⟨"", "", "", "", "", "", "", 0, 0⟩⟩

/-- The package-level cache (db.go line 93):
`cacheStore.NewStore[int, []data.User]("userStore", time.Second*20)` —
a single cache keyed by int with a 20-second ttl. -/
def userStoreInit : store Int (List User) :=
  NewStore Int (List User) "userStore" 20

/-- The db package state: the `users` collection and the `userStore`
cache. -/
structure DBState where
  coll : List User
  cache : store Int (List User)

/-- `GetUsers` (db.go lines 99-131): serve the full user list through
the cache under the fixed key 0; the loader scans the whole collection.
A loader error comes back wrapped in "failed when getting users". -/
def GetUsers (db : DBState) (now : Int) : (List User × Option Err) × DBState :=
  let r := GetData db.cache now 0 (fun _ => (db.coll, none))
  match r.err with
  | some e => (([], some ("failed when getting users: " ++ e)), { db with cache := r.post })
  | none => ((r.value, none), { db with cache := r.post })

/-- `InsertUser` (db.go lines 180-190): `InsertOne` appends the document;
the cache is not consulted or invalidated. -/
def InsertUser (db : DBState) (u : User) : DBState × Option Err :=
  ({ db with coll := db.coll ++ [u] }, none)

/-- The `$set` document of `UpdateUser` (db.go lines 201-211): every
profile field and `updated_at` are replaced; `_id` and `created_at`
stay. -/
def applySet (orig u : User) (now : Int) : User :=
  { orig with
      FirstName := u.FirstName
      LastName := u.LastName
      Nickname := u.Nickname
      Password := u.Password
      Email := u.Email
      Country := u.Country
      UpdatedAt := now }

/-- `UpdateUser` (db.go lines 193-224): `FindOneAndUpdate` on `_id` with
ReturnDocument(After); an error when no document matches.  The cache is
not consulted or invalidated. -/
def UpdateUser (db : DBState) (u : User) (now : Int) :
    DBState × Option User × Option Err :=
  match db.coll.find? (fun v => decide (v.ID = u.ID)) with
  | none => (db, none, some "error when updating user")
  | some orig =>
      ({ db with
          coll := db.coll.map (fun v => if v.ID = u.ID then applySet v u now else v) },
        some (applySet orig u now), none)

/-- `DeleteUser` (db.go lines 227-245): `DeleteOne` on `_id`; an error
when `DeletedCount` is 0.  The cache is not consulted or invalidated. -/
def DeleteUser (db : DBState) (userID : String) : DBState × Option Err :=
  if db.coll.any (fun v => decide (v.ID = userID)) then
    ({ db with coll := db.coll.filter (fun v => decide (v.ID ≠ userID)) }, none)
  else
    (db, some "no user found with the given ID")

/-- `DeleteAllUsers` (db.go lines 248-262): `DeleteMany` with the empty
filter.  The cache is not consulted or invalidated. -/
def DeleteAllUsers (db : DBState) : DBState × Option Err :=
  ({ db with coll := [] }, none)

/-- The four write operations of the db package. -/
inductive DBWrite where
  | insert (u : User)
  | update (u : User) (now : Int)
  | delete (id : String)
  | deleteAll

/-- Apply one write operation, keeping only the resulting state. -/
def applyDBWrite (db : DBState) : DBWrite → DBState
  | .insert u => (InsertUser db u).1
  | .update u now => (UpdateUser db u now).1
  | .delete id => (DeleteUser db id).1
  | .deleteAll => (DeleteAllUsers db).1

/-- A concrete stored user. -/
def aliceUser : User :=
  { ID := "a1", FirstName := "Alice", LastName := "Ant", Nickname := "alice"
    Password := "pw1", Email := "alice@example.com", Country := "UK"
    CreatedAt := 0, UpdatedAt := 0 }

/-- A concrete user inserted after the cache is primed. -/
def bobUser : User :=
  { ID := "b2", FirstName := "Bob", LastName := "Bee", Nickname := "bob"
    Password := "pw2", Email := "bob@example.com", Country := "DE"
    CreatedAt := 1, UpdatedAt := 1 }

/-- A db state whose cache was primed by a `GetUsers` at instant 0 on a
one-user collection. -/
def primedDB : DBState :=
  (GetUsers { coll := [aliceUser], cache := userStoreInit } 0).2

/-! ## Lemmas about the map model -/

theorem mapLookup_insert {K A : Type} [DecidableEq K]
    (m : List (K × A)) (k : K) (a : A) :
    mapLookup (mapInsert m k a) k = some a := by
  induction m with
  | nil => simp [mapInsert, mapLookup]
  | cons hd tl ih =>
      obtain ⟨k0, b⟩ := hd
      by_cases h : k0 = k
      · simp [mapInsert, h, mapLookup]
      · simp [mapInsert, h, mapLookup, ih]

theorem mapLookup_insert_ne {K A : Type} [DecidableEq K]
    (m : List (K × A)) (k j : K) (a : A) (h : j ≠ k) :
    mapLookup (mapInsert m k a) j = mapLookup m j := by
  have hkj : k ≠ j := Ne.symm h
  induction m with
  | nil => simp [mapInsert, mapLookup, hkj]
  | cons hd tl ih =>
      obtain ⟨k0, b⟩ := hd
      by_cases hk : k0 = k
      · subst hk
        simp [mapInsert, mapLookup, hkj]
      · simp [mapInsert, hk, mapLookup, ih]

theorem mapLookup_eq_none_filter {K A : Type} [DecidableEq K] :
    ∀ (m : List (K × A)) (k : K) (p : K × A → Bool),
      mapLookup m k = none → mapLookup (m.filter p) k = none
  | [], _, _, _ => rfl
  | (k0, a) :: tl, k, p, h => by
      by_cases hk : k0 = k
      · simp [mapLookup, hk] at h
      · have htl : mapLookup tl k = none := by simpa [mapLookup, hk] using h
        have ih := mapLookup_eq_none_filter tl k p htl
        cases hp : p (k0, a)
        · simpa [List.filter_cons, hp] using ih
        · simpa [List.filter_cons, hp, mapLookup, hk] using ih

theorem mapLookup_eq_none_of_not_mem {K A : Type} [DecidableEq K] :
    ∀ (m : List (K × A)) (k : K), k ∉ m.map Prod.fst → mapLookup m k = none
  | [], _, _ => rfl
  | (k0, a) :: tl, k, h => by
      have hk : k0 ≠ k := by
        intro hh
        exact h (by simp [hh])
      have htl : k ∉ tl.map Prod.fst := fun hh => h (by simp [hh])
      simp [mapLookup, hk, mapLookup_eq_none_of_not_mem tl k htl]

theorem mapLookup_filter_of_nodup {K A : Type} [DecidableEq K] :
    ∀ (m : List (K × A)) (k : K) (p : K × A → Bool),
      (m.map Prod.fst).Nodup →
      mapLookup (m.filter p) k =
        match mapLookup m k with
        | none => none
        | some a => if p (k, a) then some a else none
  | [], _, _, _ => rfl
  | (k0, a) :: tl, k, p, hnd => by
      have hnd2 : (k0 :: tl.map Prod.fst).Nodup := by simpa using hnd
      have hk0 : k0 ∉ tl.map Prod.fst := (List.nodup_cons.mp hnd2).1
      have htl : (tl.map Prod.fst).Nodup := (List.nodup_cons.mp hnd2).2
      by_cases hk : k0 = k
      · subst hk
        cases hp : p (k0, a)
        · have hnone : mapLookup tl k0 = none := mapLookup_eq_none_of_not_mem tl k0 hk0
          simp [List.filter_cons, hp, mapLookup,
            mapLookup_eq_none_filter tl k0 p hnone]
        · simp [List.filter_cons, hp, mapLookup]
      · have ih := mapLookup_filter_of_nodup tl k p htl
        cases hp : p (k0, a)
        · simpa [List.filter_cons, hp, mapLookup, hk] using ih
        · simpa [List.filter_cons, hp, mapLookup, hk] using ih

theorem mapLookup_append_left {K A : Type} [DecidableEq K] :
    ∀ (m m2 : List (K × A)) (k : K) (c : A),
      mapLookup m k = some c → mapLookup (m ++ m2) k = some c
  | [], _, _, _, h => by simp [mapLookup] at h
  | (k0, a) :: tl, m2, k, c, h => by
      by_cases hk : k0 = k
      · simp [mapLookup, hk] at h ⊢
        exact h
      · simp [mapLookup, hk] at h ⊢
        exact mapLookup_append_left tl m2 k c h

theorem mapLookup_append_right {K A : Type} [DecidableEq K] :
    ∀ (m m2 : List (K × A)) (k : K),
      mapLookup m k = none → mapLookup (m ++ m2) k = mapLookup m2 k
  | [], _, _, _ => rfl
  | (k0, a) :: tl, m2, k, h => by
      by_cases hk : k0 = k
      · simp [mapLookup, hk] at h
      · simp [mapLookup, hk] at h ⊢
        exact mapLookup_append_right tl m2 k h

theorem mapLookup_mapVals {K A : Type} [DecidableEq K] (F : K × A → A) :
    ∀ (m : List (K × A)) (k : K),
      mapLookup (m.map (fun p => (p.1, F p))) k =
        (mapLookup m k).map (fun a => F (k, a))
  | [], _ => rfl
  | (k0, a) :: tl, k => by
      by_cases hk : k0 = k
      · subst hk
        simp [mapLookup]
      · simp [mapLookup, hk, mapLookup_mapVals F tl k]

/-! ## Helper lemmas about the cache operations -/

section CacheLemmas

variable {K V : Type} [DecidableEq K] [Inhabited K] [Inhabited V]

/-- A fresh entry is served straight from the map: no loader call, no
state change. -/
theorem getData_hit (s : store K V) (now : Int) (k : K)
    (f : K → V × Option Err) (item : cacheItem K V)
    (hm : mapLookup s.data k = some item)
    (hfresh : now - item.created < s.duration) :
    GetData s now k f = { value := item.data, err := none, post := s, calls := 0 } := by
  simp [GetData, hm, not_le.mpr hfresh]

/-- If the key is absent, or its entry has reached the ttl, `GetData`
invokes the loader exactly once whatever the loader returns. -/
theorem getData_calls_of_miss (s : store K V) (now : Int) (k : K)
    (f : K → V × Option Err)
    (hmiss : mapLookup s.data k = none ∨
      ∃ item, mapLookup s.data k = some item ∧ now - item.created ≥ s.duration) :
    (GetData s now k f).calls = 1 := by
  rcases hfk : f k with ⟨v, e⟩
  rcases hmiss with hm | ⟨item, hm, hexp⟩
  · cases e <;> simp [GetData, hm, addData, hfk]
  · cases e <;> simp [GetData, hm, hexp, addData, hfk]

/-- A successful load installs the loaded value with `created := now`. -/
theorem getData_load_success_lookup (s : store K V) (now : Int) (k : K)
    (f : K → V × Option Err)
    (hcalls : (GetData s now k f).calls = 1)
    (herr : (GetData s now k f).err = none) :
    mapLookup (GetData s now k f).post.data k =
      some { key := k, created := now, data := (GetData s now k f).value } := by
  rcases hfk : f k with ⟨v, e⟩
  rcases hm : mapLookup s.data k with _ | item
  · cases e with
    | none => simp [GetData, hm, addData, hfk, mapLookup_insert]
    | some e0 => simp [GetData, hm, addData, hfk] at herr
  · by_cases hexp : now - item.created ≥ s.duration
    · cases e with
      | none => simp [GetData, hm, hexp, addData, hfk, mapLookup_insert]
      | some e0 => simp [GetData, hm, hexp, addData, hfk] at herr
    · rw [getData_hit s now k f item hm (by omega)] at hcalls
      simp at hcalls

/-- `GetData` only ever rewrites the `data` map: the diagnostic name, the
ttl, the sweep interval and the sweep-active flag are untouched. -/
theorem getData_post_frame (s : store K V) (now : Int) (k : K)
    (f : K → V × Option Err) :
    (GetData s now k f).post.name = s.name ∧
    (GetData s now k f).post.duration = s.duration ∧
    (GetData s now k f).post.cleanUpInterval = s.cleanUpInterval ∧
    (GetData s now k f).post.cleanUpActive = s.cleanUpActive := by
  rcases hfk : f k with ⟨v, e⟩
  rcases hm : mapLookup s.data k with _ | item
  · cases e <;> simp [GetData, hm, addData, hfk]
  · by_cases hexp : now - item.created ≥ s.duration
    · cases e <;> simp [GetData, hm, hexp, addData, hfk]
    · simp [GetData, hm, hexp]

/-- No store API operation changes the sweep-active flag. -/
theorem applyStoreOp_cleanUpActive (s : store K V) (op : StoreOp K V) :
    (applyStoreOp s op).cleanUpActive = s.cleanUpActive := by
  cases op with
  | getData now key f => exact (getData_post_frame s now key f).2.2.2
  | clear => rfl
  | sweep now => rfl

/-- No sequence of store API operations changes the sweep-active flag. -/
theorem applyStoreOps_cleanUpActive :
    ∀ (ops : List (StoreOp K V)) (s : store K V),
      (applyStoreOps s ops).cleanUpActive = s.cleanUpActive
  | [], _ => rfl
  | op :: rest, s => by
      have h1 := applyStoreOp_cleanUpActive s op
      have h2 := applyStoreOps_cleanUpActive rest (applyStoreOp s op)
      simpa [applyStoreOps] using h2.trans h1

end CacheLemmas

/-! ## Claim theorems for the TTL cache -/

section CacheClaims

variable {K V : Type} [DecidableEq K] [Inhabited K] [Inhabited V]

/-- C2 counterexample: with ttl 10 and an entry loaded at instant 0, a
`GetData` call at t0 = 9 succeeds with the cached value 5, yet the call
at t1 = 11 — inside the window [t0, t0 + ttl) — invokes its loader and
returns a different value, because expiry is anchored at the entry's
`created` instant (0), not at the instant of the last successful call. -/
theorem getData_hit_window_counterexample :
    (GetData demoStore 9 0 loadFive).err = none ∧
    (GetData demoStore 9 0 loadFive).value = 5 ∧
    ((9 : Int) ≤ 11 ∧ (11 : Int) < 9 + demoStore.duration) ∧
    (GetData (GetData demoStore 9 0 loadFive).post 11 0 loadSeven).calls = 1 ∧
    (GetData (GetData demoStore 9 0 loadFive).post 11 0 loadSeven).value = 7 := by
  decide

/-- C2 (amended): if the `GetData` call at t0 itself invoked the loader
and succeeded (so the value was produced at t0), then any sequential
`GetData` at t1 with t0 ≤ t1 < t0 + ttl returns that value, invokes no
loader, and leaves the store — in particular the cached entry — entirely
unchanged. -/
theorem getData_memoized_within_ttl_after_load
    (s : store K V) (t0 t1 : Int) (k : K) (f f2 : K → V × Option Err)
    (hcalls : (GetData s t0 k f).calls = 1)
    (herr : (GetData s t0 k f).err = none)
    (h0 : t0 ≤ t1) (h1 : t1 < t0 + s.duration) :
    GetData (GetData s t0 k f).post t1 k f2 =
      { value := (GetData s t0 k f).value
        err := none
        post := (GetData s t0 k f).post
        calls := 0 } := by
  have hlook := getData_load_success_lookup s t0 k f hcalls herr
  have hdur := (getData_post_frame s t0 k f).2.1
  have hfresh : t1 - t0 < (GetData s t0 k f).post.duration := by omega
  simpa using getData_hit (GetData s t0 k f).post t1 k f2 _ hlook hfresh

/-- C2 witness: loading key 0 at instant 0 with ttl 10, the call at
instant 5 returns the loaded value with no loader call and no state
change. -/
theorem getData_memoized_witness :
    GetData (GetData (NewStore Nat Nat "testStore" 10) 0 0 loadFive).post 5 0 loadSeven =
      { value := (GetData (NewStore Nat Nat "testStore" 10) 0 0 loadFive).value
        err := none
        post := (GetData (NewStore Nat Nat "testStore" 10) 0 0 loadFive).post
        calls := 0 } :=
  getData_memoized_within_ttl_after_load (NewStore Nat Nat "testStore" 10) 0 5 0
    loadFive loadSeven (by decide) (by decide) (by decide) (by decide)

/-- C3: when the key misses (absent, or present but at/over the ttl) and
the loader errors, `GetData` returns the zero value together with that
error, the store — including any stale entry for the key — is left
exactly as it was, and every later call still invokes its loader once
(the error is never cached). -/
theorem getData_loader_error_not_cached
    (s : store K V) (now : Int) (k : K) (f : K → V × Option Err) (e : Err)
    (hf : (f k).2 = some e)
    (hmiss : mapLookup s.data k = none ∨
      ∃ item, mapLookup s.data k = some item ∧ now - item.created ≥ s.duration) :
    GetData s now k f = { value := default, err := some e, post := s, calls := 1 } ∧
    ∀ (now2 : Int) (f2 : K → V × Option Err), now ≤ now2 →
      (GetData (GetData s now k f).post now2 k f2).calls = 1 := by
  rcases hfk : f k with ⟨v, e0⟩
  have he0 : e0 = some e := by simpa [hfk] using hf
  subst he0
  have hfirst : GetData s now k f = { value := default, err := some e, post := s, calls := 1 } := by
    rcases hmiss with hm | ⟨item, hm, hexp⟩
    · simp [GetData, hm, addData, hfk]
    · simp [GetData, hm, hexp, addData, hfk]
  refine ⟨hfirst, ?_⟩
  intro now2 f2 hle
  rw [hfirst]
  show (GetData s now2 k f2).calls = 1
  apply getData_calls_of_miss
  rcases hmiss with hm | ⟨item, hm, hexp⟩
  · exact Or.inl hm
  · exact Or.inr ⟨item, hm, by omega⟩

/-- C3 witness: on the ttl-expired entry of `demoStore` at instant 20, a
failing loader returns ("", zero) with the error, leaves the stale entry
in place, and the retry at instant 21 invokes its loader again. -/
theorem getData_loader_error_witness :
    GetData demoStore 20 0 loadBoom =
      { value := 0, err := some "mock error", post := demoStore, calls := 1 } ∧
    (GetData (GetData demoStore 20 0 loadBoom).post 21 0 loadBoom).calls = 1 := by
  have h := getData_loader_error_not_cached demoStore 20 0 loadBoom "mock error"
    (by decide) (Or.inr ⟨⟨0, 0, 5⟩, by decide, by decide⟩)
  exact ⟨h.1, h.2 21 loadBoom (by decide)⟩

/-- C4: expiry is inclusive at the boundary — an entry whose age equals
the ttl exactly is reloaded by `GetData` and deleted by the sweep; a
successful reload stores `created := now`, so the age resets; and with
ttl = 0 every call (hit or miss) invokes the loader. -/
theorem getData_ttl_boundary_inclusive :
    (∀ (s : store K V) (now : Int) (k : K) (f : K → V × Option Err)
        (item : cacheItem K V),
        mapLookup s.data k = some item → now - item.created = s.duration →
        (GetData s now k f).calls = 1) ∧
    (∀ (s : store K V) (now : Int) (k : K) (item : cacheItem K V),
        (s.data.map Prod.fst).Nodup →
        mapLookup s.data k = some item → now - item.created = s.duration →
        mapLookup (sweepPass s now).data k = none) ∧
    (∀ (s : store K V) (now : Int) (k : K) (f : K → V × Option Err),
        (GetData s now k f).calls = 1 → (GetData s now k f).err = none →
        mapLookup (GetData s now k f).post.data k =
          some { key := k, created := now, data := (GetData s now k f).value }) ∧
    (∀ (s : store K V) (now : Int) (k : K) (f : K → V × Option Err),
        s.duration = 0 →
        (∀ item, mapLookup s.data k = some item → item.created ≤ now) →
        (GetData s now k f).calls = 1) := by
  refine ⟨?_, ?_, ?_, ?_⟩
  · intro s now k f item hm heq
    exact getData_calls_of_miss s now k f (Or.inr ⟨item, hm, le_of_eq heq.symm⟩)
  · intro s now k item hnd hm heq
    rw [sweepPass, mapLookup_filter_of_nodup s.data k _ hnd, hm]
    simp [heq]
  · intro s now k f hcalls herr
    exact getData_load_success_lookup s now k f hcalls herr
  · intro s now k f hdur hcreated
    rcases hm : mapLookup s.data k with _ | item
    · exact getData_calls_of_miss s now k f (Or.inl hm)
    · exact getData_calls_of_miss s now k f
        (Or.inr ⟨item, hm, by have := hcreated item hm; omega⟩)

/-- C4 witness: at instant 10 the age of `demoStore`'s entry equals the
ttl 10 exactly: `GetData` reloads it and the sweep deletes it; the
reload stores `created = 10`; and a ttl-0 store reloads on every call. -/
theorem getData_ttl_boundary_witness :
    (GetData demoStore 10 0 loadSeven).calls = 1 ∧
    mapLookup (sweepPass demoStore 10).data 0 = none ∧
    mapLookup (GetData demoStore 10 0 loadSeven).post.data 0 =
      some { key := 0, created := 10, data := 7 } ∧
    (GetData (NewStore Nat Nat "zero" 0) 5 0 loadFive).calls = 1 ∧
    (GetData (GetData (NewStore Nat Nat "zero" 0) 5 0 loadFive).post 5 0 loadSeven).calls = 1 := by
  have h := @getData_ttl_boundary_inclusive Nat Nat _ _ _
  refine ⟨h.1 demoStore 10 0 loadSeven ⟨0, 0, 5⟩ (by decide) (by decide),
    h.2.1 demoStore 10 0 ⟨0, 0, 5⟩ (by decide) (by decide) (by decide),
    h.2.2.1 demoStore 10 0 loadSeven (by decide) (by decide),
    h.2.2.2 (NewStore Nat Nat "zero" 0) 5 0 loadFive rfl ?_,
    h.2.2.2 (GetData (NewStore Nat Nat "zero" 0) 5 0 loadFive).post 5 0 loadSeven rfl ?_⟩
  · intro item hitem
    have hnone : mapLookup (NewStore Nat Nat "zero" 0).data 0 =
        (none : Option (cacheItem Nat Nat)) := rfl
    rw [hnone] at hitem
    cases hitem
  · intro item hitem
    have hsome : mapLookup (GetData (NewStore Nat Nat "zero" 0) 5 0 loadFive).post.data 0 =
        some (⟨0, 5, 5⟩ : cacheItem Nat Nat) := by decide
    rw [hsome] at hitem
    cases hitem
    decide

/-- C7: one sweep pass deletes exactly the entries whose age at sweep
time has reached the ttl and keeps every younger entry unchanged; and
the sweep tick `cleanUpInterval` is the constant 1 (second), whatever
ttl the store was built with. -/
theorem sweepPass_exact_expiry :
    (∀ (s : store K V) (now : Int) (k : K),
        (s.data.map Prod.fst).Nodup →
        mapLookup (sweepPass s now).data k =
          match mapLookup s.data k with
          | none => none
          | some item =>
              if now - item.created ≥ s.duration then none else some item) ∧
    (∀ (name : String) (dur : Int), (NewStore K V name dur).cleanUpInterval = 1) := by
  constructor
  · intro s now k hnd
    rw [sweepPass, mapLookup_filter_of_nodup s.data k _ hnd]
    rcases mapLookup s.data k with _ | item
    · rfl
    · by_cases hexp : now - item.created ≥ s.duration <;> simp [hexp]
  · intro name dur
    rfl

/-- C7 witness: sweeping the two-entry store at instant 10 deletes the
expired key 0 (age 10 = ttl) and keeps key 1 (age 7 < ttl) unchanged;
a store built with ttl 20 still has sweep interval 1. -/
theorem sweepPass_exact_expiry_witness :
    mapLookup (sweepPass twoKeyStore 10).data 0 = none ∧
    mapLookup (sweepPass twoKeyStore 10).data 1 = some ⟨1, 3, 7⟩ ∧
    (NewStore Nat Nat "userStore" 20).cleanUpInterval = 1 := by
  have h := @sweepPass_exact_expiry Nat Nat _ _ _
  refine ⟨?_, ?_, h.2 "userStore" 20⟩
  · rw [h.1 twoKeyStore 10 0 (by decide)]
    decide
  · rw [h.1 twoKeyStore 10 1 (by decide)]
    decide

/-- C8 counterexample: the claimed shutdown/close operation does not
exist.  `GetData`, `Clear` and the sweep are the whole API of a
constructed store, and running all of them — shown here on a concrete
sequence that hits, misses, fails a load, sweeps and clears — leaves
`cleanUpActive` true: nothing ever stops the sweep goroutine. -/
theorem store_ops_leave_sweep_active :
    (applyStoreOps (NewStore Nat Nat "userStore" 20) demoStoreOps).cleanUpActive = true := by
  decide

/-- C8 (amended): the store keeps a `cleanUpActive` flag that the sweep
loop consults each tick, but the package exposes no shutdown or close
operation: no sequence of API operations (`GetData`, `Clear`, sweep
passes) ever sets the flag false, so the sweep goroutine runs for the
remaining process lifetime. -/
theorem store_has_no_shutdown_op (name : String) (dur : Int)
    (ops : List (StoreOp K V)) :
    (applyStoreOps (NewStore K V name dur) ops).cleanUpActive = true :=
  applyStoreOps_cleanUpActive ops (NewStore K V name dur)

end CacheClaims

/-! ## Claim theorems about concurrent `GetData` calls -/

section ConcurrencyLemmas

variable {K V : Type} [DecidableEq K] [Inhabited K] [Inhabited V]

/-- Running any schedule keeps the machine inside a step-closed state
set. -/
theorem runSched_mem_closure (dur now : Int) (key : K)
    (f : K → V × Option Err) (R : List (MState K V))
    (hclosed : ∀ s ∈ R,
      stepM dur now key f s true ∈ R ∧ stepM dur now key f s false ∈ R) :
    ∀ (sched : List Bool) (s0 : MState K V),
      s0 ∈ R → runSched dur now key f sched s0 ∈ R
  | [], _, h0 => h0
  | who :: rest, s0, h0 => by
      have hnext : stepM dur now key f s0 who ∈ R := by
        cases who
        · exact (hclosed s0 h0).2
        · exact (hclosed s0 h0).1
      simpa [runSched] using
        runSched_mem_closure dur now key f R hclosed rest _ hnext

end ConcurrencyLemmas

section ConcurrencyClaims

/-- C1 counterexample: with the single entry for key 0 created at
instant 0, ttl 10, both callers at instant 10 (the entry is expired —
one miss episode), the interleaving "caller 1 reads, caller 2 reads,
caller 1 reloads, caller 2 reloads" completes both calls with the
loader invoked TWICE: the final age check re-tests each caller's stale
local `item` instead of re-reading the map, so the second caller
reloads even though the first just refreshed the entry. -/
theorem getData_expired_double_load_counterexample :
    (runSched 10 10 0 loadSeven [true, false, true, false] expiredInit).calls = 2 ∧
    (runSched 10 10 0 loadSeven [true, false, true, false] expiredInit).c1.pc = 3 ∧
    (runSched 10 10 0 loadSeven [true, false, true, false] expiredInit).c2.pc = 3 := by
  decide

/-- C1 (amended): collapsing holds only for the absent-entry miss with a
succeeding loader: because the loader runs inside the write lock and
the re-check under that lock sees the freshly inserted entry, every
interleaving of two concurrent `GetData` calls on an absent key invokes
the loader at most once, and exactly once when both calls complete,
with both callers returning the loaded value without error.  When the
entry is present but expired (or the loader errors), concurrent callers
may each invoke the loader (see the counterexample). -/
theorem getData_collapses_absent_miss (sched : List Bool) :
    (runSched 10 0 0 loadFive sched absentInit).calls ≤ 1 ∧
    ((runSched 10 0 0 loadFive sched absentInit).c1.pc = 3 ∧
     (runSched 10 0 0 loadFive sched absentInit).c2.pc = 3 →
      (runSched 10 0 0 loadFive sched absentInit).calls = 1 ∧
      (runSched 10 0 0 loadFive sched absentInit).c1.retVal = 5 ∧
      (runSched 10 0 0 loadFive sched absentInit).c1.retErr = none ∧
      (runSched 10 0 0 loadFive sched absentInit).c2.retVal = 5 ∧
      (runSched 10 0 0 loadFive sched absentInit).c2.retErr = none) := by
  have hmem : runSched 10 0 0 loadFive sched absentInit ∈ reachAbsent :=
    runSched_mem_closure 10 0 0 loadFive reachAbsent (by decide) sched
      absentInit (by decide)
  have hP : ∀ s ∈ reachAbsent,
      s.calls ≤ 1 ∧
      (s.c1.pc = 3 ∧ s.c2.pc = 3 →
        s.calls = 1 ∧ s.c1.retVal = 5 ∧ s.c1.retErr = none ∧
        s.c2.retVal = 5 ∧ s.c2.retErr = none) := by decide
  exact hP _ hmem

/-- C1 witness: the schedule in which caller 1 runs to completion and
then caller 2 runs invokes the loader once and returns 5 to caller 1. -/
theorem getData_collapses_absent_miss_witness :
    (runSched 10 0 0 loadFive [true, true, true, false, false] absentInit).calls = 1 ∧
    (runSched 10 0 0 loadFive [true, true, true, false, false] absentInit).c1.retVal = 5 := by
  have h := getData_collapses_absent_miss [true, true, true, false, false]
  exact ⟨(h.2 (by decide)).1, (h.2 (by decide)).2.1⟩

end ConcurrencyClaims

/-! ## Helper lemmas about the broadcaster -/

theorem trySend_of_not_canAccept {Ev : Type} (c : Chan Ev) (ev : Ev)
    (h : canAccept c = false) : trySend c ev = (c, false) := by
  have hor := of_decide_eq_false h
  have h1 : ¬ 0 < c.recvReady := fun hh => hor (Or.inl hh)
  have h2 : ¬ c.buf.length < c.cap := fun hh => hor (Or.inr hh)
  simp [trySend, h1, h2]

theorem trySend_of_canAccept {Ev : Type} (c : Chan Ev) (ev : Ev)
    (h : canAccept c = true) :
    (trySend c ev).2 = true ∧
    ((trySend c ev).1.delivered = c.delivered ++ [ev] ∨
     (trySend c ev).1.buf = c.buf ++ [ev]) := by
  have hor := of_decide_eq_true h
  by_cases h1 : 0 < c.recvReady
  · constructor
    · simp [trySend, h1]
    · left
      simp [trySend, h1]
  · have h2 : c.buf.length < c.cap := by
      rcases hor with hr | hb
      · exact absurd hr h1
      · exact hb
    constructor
    · simp [trySend, h1, h2]
    · right
      simp [trySend, h1, h2]

theorem trySend_closed {Ev : Type} (c : Chan Ev) (ev : Ev) :
    (trySend c ev).1.closed = c.closed := by
  by_cases h1 : 0 < c.recvReady
  · simp [trySend, h1]
  · by_cases h2 : c.buf.length < c.cap <;> simp [trySend, h1, h2]

/-- The broadcaster invariant carried through every trace: watcher ids
and channel keys stay below `nextId`, and every watcher's channel is
present and open. -/
theorem bStep_inv (s : BState) (op : BOp)
    (h : (∀ id ∈ s.watchers, id < s.nextId) ∧
         (∀ p ∈ s.chans, p.1 < s.nextId) ∧
         (∀ id ∈ s.watchers, ∃ c, mapLookup s.chans id = some c ∧ c.closed = false)) :
    (∀ id ∈ (bStep s op).watchers, id < (bStep s op).nextId) ∧
    (∀ p ∈ (bStep s op).chans, p.1 < (bStep s op).nextId) ∧
    (∀ id ∈ (bStep s op).watchers,
      ∃ c, mapLookup (bStep s op).chans id = some c ∧ c.closed = false) := by
  obtain ⟨h1, h2, h3⟩ := h
  cases op with
  | subscribe =>
      refine ⟨?_, ?_, ?_⟩
      · intro id hid
        simp [bStep, bSubscribe] at hid ⊢
        rcases hid with hid | hid
        · exact Nat.lt_succ_of_lt (h1 id hid)
        · omega
      · intro p hp
        simp [bStep, bSubscribe] at hp ⊢
        rcases hp with hp | hp
        · exact Nat.lt_succ_of_lt (h2 p hp)
        · rw [hp]
          omega
      · intro id hid
        simp [bStep, bSubscribe] at hid ⊢
        rcases hid with hid | hid
        · obtain ⟨c, hc, hopen⟩ := h3 id hid
          exact ⟨c, mapLookup_append_left _ _ _ _ hc, hopen⟩
        · subst hid
          have hnone : mapLookup s.chans s.nextId = none := by
            apply mapLookup_eq_none_of_not_mem
            intro hmem
            obtain ⟨p, hp, hp1⟩ := List.mem_map.mp hmem
            exact absurd (hp1 ▸ h2 p hp) (lt_irrefl _)
          refine ⟨newWatchChan, ?_, rfl⟩
          rw [mapLookup_append_right _ _ _ hnone]
          simp [mapLookup]
  | consumerReady id0 =>
      refine ⟨h1, ?_, ?_⟩
      · intro p hp
        obtain ⟨q, hq, hq1⟩ := List.mem_map.mp hp
        rw [← hq1]
        exact h2 q hq
      · intro id hid
        obtain ⟨c, hc, hopen⟩ := h3 id hid
        refine ⟨if id = id0 ∧ c.closed = false then
            { c with recvReady := c.recvReady + 1 } else c, ?_, ?_⟩
        · show mapLookup (s.chans.map _) id = _
          rw [mapLookup_mapVals _ s.chans id, hc]
          rfl
        · by_cases hid0 : id = id0 <;> simp [hid0, hopen]
  | notify userID updateType user =>
      refine ⟨h1, ?_, ?_⟩
      · intro p hp
        obtain ⟨q, hq, hq1⟩ := List.mem_map.mp hp
        rw [← hq1]
        exact h2 q hq
      · intro id hid
        obtain ⟨c, hc, hopen⟩ := h3 id hid
        refine ⟨if id ∈ s.watchers then
            (trySend c { UserId := userID, UpdateType := updateType, User := user }).1
          else c, ?_, ?_⟩
        · show mapLookup (s.chans.map _) id = _
          rw [mapLookup_mapVals _ s.chans id, hc]
          rfl
        · by_cases hcond : id ∈ s.watchers <;> simp [hcond, trySend_closed, hopen]
  | streamEnd id0 =>
      have hsub : ∀ id ∈ (bStep s (.streamEnd id0)).watchers,
          id ∈ s.watchers ∧ id ≠ id0 := by
        intro id hid
        simp [bStep, bStreamEnd, bCloseChan, bRemoveWatcher, List.mem_filter] at hid
        exact hid
      refine ⟨?_, ?_, ?_⟩
      · intro id hid
        exact h1 id (hsub id hid).1
      · intro p hp
        simp [bStep, bStreamEnd, bCloseChan, bRemoveWatcher] at hp
        obtain ⟨a, b, hab, hp1⟩ := hp
        rw [← hp1]
        simpa using h2 (a, b) hab
      · intro id hid
        obtain ⟨hmem, hne⟩ := hsub id hid
        obtain ⟨c, hc, hopen⟩ := h3 id hmem
        refine ⟨c, ?_, hopen⟩
        show mapLookup ((bRemoveWatcher s id0).chans.map _) id = some c
        rw [mapLookup_mapVals _ _ id]
        have hc2 : mapLookup (bRemoveWatcher s id0).chans id = some c := hc
        rw [hc2]
        simp [hne]

/-- The broadcaster invariant holds along every trace. -/
theorem bRun_inv :
    ∀ (ops : List BOp) (s : BState),
      ((∀ id ∈ s.watchers, id < s.nextId) ∧
       (∀ p ∈ s.chans, p.1 < s.nextId) ∧
       (∀ id ∈ s.watchers, ∃ c, mapLookup s.chans id = some c ∧ c.closed = false)) →
      ((∀ id ∈ (bRun s ops).watchers, id < (bRun s ops).nextId) ∧
       (∀ p ∈ (bRun s ops).chans, p.1 < (bRun s ops).nextId) ∧
       (∀ id ∈ (bRun s ops).watchers,
         ∃ c, mapLookup (bRun s ops).chans id = some c ∧ c.closed = false))
  | [], _, h => h
  | op :: rest, s, h => by
      have hstep := bStep_inv s op h
      simpa [bRun] using bRun_inv rest (bStep s op) hstep

/-! ## Claim theorems for the broadcaster -/

/-- C5: `NotifyUpdate` makes one non-blocking enqueue attempt per
registered subscriber; a subscriber that cannot accept the event (no
parked receiver, no buffer headroom) keeps its channel state — only its
own copy is dropped — while every subscriber with headroom receives the
event (handed to its receiver or buffered); the outcome at each
position depends only on that subscriber's own channel, the function is
total (it never blocks), and it returns only the channel list — there
is no error to return. -/
theorem notifyUpdate_best_effort_isolation
    (watchers : List (Chan UserUpdate)) (userID updateType : String)
    (user : Option PbUser) :
    (NotifyUpdate watchers userID updateType user).length = watchers.length ∧
    (∀ (j : Nat) (ch : Chan UserUpdate),
      watchers[j]? = some ch → canAccept ch = false →
      (NotifyUpdate watchers userID updateType user)[j]? = some ch) ∧
    (∀ (j : Nat) (ch : Chan UserUpdate),
      watchers[j]? = some ch → canAccept ch = true →
      (NotifyUpdate watchers userID updateType user)[j]? =
          some (trySend ch { UserId := userID, UpdateType := updateType, User := user }).1 ∧
        ((trySend ch { UserId := userID, UpdateType := updateType, User := user }).1.delivered =
            ch.delivered ++ [{ UserId := userID, UpdateType := updateType, User := user }] ∨
         (trySend ch { UserId := userID, UpdateType := updateType, User := user }).1.buf =
            ch.buf ++ [{ UserId := userID, UpdateType := updateType, User := user }])) := by
  refine ⟨by simp [NotifyUpdate], ?_, ?_⟩
  · intro j ch hj hfull
    simp [NotifyUpdate, hj, trySend_of_not_canAccept ch _ hfull]
  · intro j ch hj hroom
    exact ⟨by simp [NotifyUpdate, hj], (trySend_of_canAccept ch _ hroom).2⟩

/-- C5 witness: with subscriber 0 unable to accept (no parked receiver
on its unbuffered channel) and subscriber 1 ready, publishing drops
only subscriber 0's copy and delivers to subscriber 1. -/
theorem notifyUpdate_isolation_witness :
    (NotifyUpdate [fullChan, readyChan] "u1" updateCREATED none)[0]? = some fullChan ∧
    (NotifyUpdate [fullChan, readyChan] "u1" updateCREATED none)[1]? =
      some (trySend readyChan
        { UserId := "u1", UpdateType := updateCREATED, User := none }).1 ∧
    (trySend readyChan
        { UserId := "u1", UpdateType := updateCREATED, User := none }).1.delivered =
      readyChan.delivered ++ [{ UserId := "u1", UpdateType := updateCREATED, User := none }] := by
  have h := notifyUpdate_best_effort_isolation [fullChan, readyChan] "u1" updateCREATED none
  have hfull := h.2.1 0 fullChan (by decide) (by decide)
  have hready := h.2.2 1 readyChan (by decide) (by decide)
  refine ⟨hfull, hready.1, ?_⟩
  rcases hready.2 with hd | hb
  · exact hd
  · exact absurd hb (by decide)

/-- C6: along every trace of broadcaster events from the initial state,
every channel in the watchers set is open; stream termination removes
the watcher from the set and only then closes the channel (so the id is
out of the set at the instant of close, and `NotifyUpdate` — which
sends only to channels in the set — never sends on a closed channel);
and a removed subscriber's channel is untouched by later publishes: it
receives no further events. -/
theorem broadcaster_watchers_open_invariant :
    (∀ ops : List BOp, ∀ id ∈ (bRun bInit ops).watchers,
      ∃ c, mapLookup (bRun bInit ops).chans id = some c ∧ c.closed = false) ∧
    (∀ (s : BState) (id : Nat),
      bStreamEnd s id = bCloseChan (bRemoveWatcher s id) id ∧
      id ∉ (bRemoveWatcher s id).watchers) ∧
    (∀ (s : BState) (id : Nat) (userID updateType : String) (user : Option PbUser),
      id ∉ s.watchers →
      mapLookup (bNotify s userID updateType user).chans id = mapLookup s.chans id) := by
  refine ⟨?_, ?_, ?_⟩
  · intro ops
    exact (bRun_inv ops bInit (by simp [bInit, mapLookup])).2.2
  · intro s id
    refine ⟨rfl, ?_⟩
    simp [bRemoveWatcher, List.mem_filter]
  · intro s id userID updateType user hout
    show mapLookup (s.chans.map _) id = _
    rw [mapLookup_mapVals _ s.chans id]
    rcases mapLookup s.chans id with _ | c
    · rfl
    · simp [hout]

/-- C6 witness: after two subscribes and the first stream's
termination, watcher 1's channel is present and open, id 0 is out of
the set before its close, and a publish leaves the removed channel 0
untouched. -/
theorem broadcaster_watchers_open_witness :
    (∃ c, mapLookup (bRun bInit demoBOps).chans 1 = some c ∧ c.closed = false) ∧
    0 ∉ (bRemoveWatcher (bRun bInit demoBOps) 0).watchers ∧
    mapLookup (bNotify (bRun bInit demoBOps) "u2" updateUPDATED none).chans 0 =
      mapLookup (bRun bInit demoBOps).chans 0 := by
  have h := broadcaster_watchers_open_invariant
  exact ⟨h.1 demoBOps 1 (by decide), (h.2.1 (bRun bInit demoBOps) 0).2,
    h.2.2 (bRun bInit demoBOps) 0 "u2" updateUPDATED none (by decide)⟩

/-- C9: the channel `WatchUsers` registers is unbuffered (capacity 0),
so a non-blocking send on such a channel succeeds exactly when a
receiver is already parked on it, and with no waiting receiver the send
takes the default branch: the event is dropped and the channel is
unchanged. -/
theorem watch_channel_unbuffered_delivery :
    newWatchChan.cap = 0 ∧
    (∀ (c : Chan UserUpdate) (ev : UserUpdate), c.cap = 0 →
      ((trySend c ev).2 = true ↔ 0 < c.recvReady)) ∧
    (∀ (c : Chan UserUpdate) (ev : UserUpdate), c.cap = 0 → c.recvReady = 0 →
      trySend c ev = (c, false)) := by
  refine ⟨rfl, ?_, ?_⟩
  · intro c ev hcap
    constructor
    · intro h
      by_contra hr
      simp [trySend, hr, hcap] at h
    · intro h
      simp [trySend, h]
  · intro c ev hcap hr
    simp [trySend, hr, hcap]

/-- C9 witness: the send succeeds on the channel with a parked receiver
and is dropped without a state change on the one without. -/
theorem watch_channel_unbuffered_witness :
    ((trySend readyChan { UserId := "u1", UpdateType := "CREATED", User := none }).2 = true ↔
      0 < readyChan.recvReady) ∧
    trySend fullChan { UserId := "u1", UpdateType := "CREATED", User := none } =
      (fullChan, false) := by
  have h := watch_channel_unbuffered_delivery
  exact ⟨h.2.1 readyChan _ rfl, h.2.2 fullChan _ rfl rfl⟩

/-! ## Claim theorem for the db layer -/

/-- C10: none of the write operations (`InsertUser`, `UpdateUser`,
`DeleteUser`, `DeleteAllUsers`) touches the `userStore` cache — no
clear, no entry removal — so after any sequence of writes, a `GetUsers`
within the ttl of the cached entry under key 0 still returns the
previously cached user list unchanged, and the cache `db.go` builds has
ttl 20 seconds. -/
theorem write_ops_preserve_users_cache :
    (∀ (db : DBState) (w : DBWrite), (applyDBWrite db w).cache = db.cache) ∧
    (∀ (db : DBState) (ws : List DBWrite) (t1 : Int)
        (item : cacheItem Int (List User)),
        mapLookup db.cache.data 0 = some item →
        t1 - item.created < db.cache.duration →
        (GetUsers (ws.foldl applyDBWrite db) t1).1 = (item.data, none) ∧
        (GetUsers (ws.foldl applyDBWrite db) t1).2.cache = db.cache) ∧
    userStoreInit.duration = 20 := by
  have hframe : ∀ (db : DBState) (w : DBWrite), (applyDBWrite db w).cache = db.cache := by
    intro db w
    cases w with
    | insert u => rfl
    | update u now =>
        show (UpdateUser db u now).1.cache = db.cache
        rcases hf : db.coll.find? (fun v => decide (v.ID = u.ID)) with _ | orig <;>
          simp [UpdateUser, hf]
    | delete id =>
        show (DeleteUser db id).1.cache = db.cache
        by_cases hany : db.coll.any (fun v => decide (v.ID = id)) <;>
          simp [DeleteUser, hany]
    | deleteAll => rfl
  have hcache : ∀ (ws : List DBWrite) (d : DBState),
      (ws.foldl applyDBWrite d).cache = d.cache := by
    intro ws
    induction ws with
    | nil => intro d; rfl
    | cons w rest ih =>
        intro d
        show (rest.foldl applyDBWrite (applyDBWrite d w)).cache = d.cache
        rw [ih (applyDBWrite d w), hframe d w]
  refine ⟨hframe, ?_, rfl⟩
  intro db ws t1 item hm hfresh
  have hm2 : mapLookup (ws.foldl applyDBWrite db).cache.data 0 = some item := by
    rw [hcache ws db]
    exact hm
  have hfresh2 : t1 - item.created < (ws.foldl applyDBWrite db).cache.duration := by
    rw [hcache ws db]
    exact hfresh
  have hit := getData_hit (ws.foldl applyDBWrite db).cache t1 0
    (fun _ => ((ws.foldl applyDBWrite db).coll, none)) item hm2 hfresh2
  constructor
  · simp [GetUsers, hit]
  · simp [GetUsers, hit]
    exact hcache ws db

/-- C10 witness: with the cache primed at instant 0 on the one-user
collection, inserting a second user leaves the cache untouched, and
`GetUsers` at instant 5 still returns only the originally cached
user. -/
theorem write_ops_preserve_users_cache_witness :
    (applyDBWrite primedDB (.insert bobUser)).cache = primedDB.cache ∧
    (GetUsers ([DBWrite.insert bobUser].foldl applyDBWrite primedDB) 5).1 =
      ([aliceUser], none) ∧
    (GetUsers ([DBWrite.insert bobUser].foldl applyDBWrite primedDB) 5).2.cache =
      primedDB.cache := by
  have h := write_ops_preserve_users_cache
  have h2 := h.2.1 primedDB [DBWrite.insert bobUser] 5
    ⟨0, 0, [aliceUser]⟩ (by decide) (by decide)
  exact ⟨h.1 primedDB (.insert bobUser), h2.1, h2.2⟩

end UserApi
